import Mathlib

/-!
# geojson: context options, artifact lookup and the subarea command

A shallow embedding of

* `internal/osm/context.go`  (`NewContext`, the `ctx*` readers, `ctxSetRoot`),
* `internal/osm/finder.go`   (`validateOut`, `FindSubAreas`),
* `cmd/geojson/main.go`      (`NewSubAreaCommand`, the tail of `main`),

followed by the theorems that settle the claims about them.

Conventions of the embedding.

* A Go `error` is `Option String`: `none` is `nil`, `some msg` is an error whose
  text is `msg` (what `errors.New(msg)` builds).
* A Go `interface{}` value is an `Any`: the nil interface, or a dynamic value
  tagged by its dynamic type.  A type assertion `x.(T)` is a function returning
  the pair `(value, ok)`, with the zero value of `T` when `ok` is false.
* A `context.Context` is its `Value` method.  `context.WithValue` shadows
  exactly the key it is given (interface equality: same dynamic type and same
  value) and delegates every other key to its parent; it never mutates the
  parent.
* Effects (logger calls, `os.Stat` calls, calls into package `osm`) are
  recorded in an explicit trace that the embedded function returns next to its
  result.
-/

namespace Geojson

/-! ## Go values -/

/-- Go `error`: `none` is nil, `some msg` an error with text `msg`. -/
abbrev Error := Option String

/-- Go `errors.New`. -/
def errorsNew (msg : String) : Error := some msg

/-- A concrete (non-nil) value implementing `shared.Logger`, identified by a handle. -/
structure LoggerImpl where
  id : Nat
deriving DecidableEq, Repr

/-- An interface value of type `shared.Logger`: `none` is the nil interface. -/
abbrev Logger := Option LoggerImpl

/-- Modelled from the spec: `shared.LoggerNoop` is declared in `internal/shared`,
which is not among the sources; the spec calls it "a no-op default" logger that a
component can always be handed, so it is a fixed non-nil logger value. -/
def LoggerNoop : Logger := some ⟨0⟩

/-- A pointer `*osm.Relation`: `none` is the nil pointer, `some a` the relation at `a`. -/
abbrev RelationPtr := Option Nat

/-- A Go `interface{}` value, by dynamic type. -/
inductive Any where
  /-- the nil interface -/
  | nil
  /-- dynamic type `bool` -/
  | bool (b : Bool)
  /-- dynamic type `string` -/
  | str (s : String)
  /-- a dynamic type implementing `shared.Logger`; as an interface value it is
  not nil, whatever the concrete value is -/
  | logger (l : LoggerImpl)
  /-- dynamic type `*osm.Relation` (the pointer itself may be nil) -/
  | relation (p : RelationPtr)
  /-- any other dynamic type, tagged by type identity -/
  | other (ty : Nat)
deriving DecidableEq, Repr

/-- Conversion of a `shared.Logger` interface value to `interface{}`. -/
def Any.ofLogger : Logger → Any
  | none => Any.nil
  | some l => Any.logger l

/-- Type assertion `x.(bool)`. -/
def Any.asBool : Any → Bool × Bool
  | Any.bool b => (b, true)
  | _ => (false, false)

/-- Type assertion `x.(string)`. -/
def Any.asString : Any → String × Bool
  | Any.str s => (s, true)
  | _ => ("", false)

/-- Type assertion `x.(*osm.Relation)`. -/
def Any.asRelation : Any → RelationPtr × Bool
  | Any.relation p => (p, true)
  | _ => (none, false)

/-- Type assertion `x.(shared.Logger)`. -/
def Any.asLogger : Any → Logger × Bool
  | Any.logger l => (some l, true)
  | _ => (none, false)

/-- A context key as an interface value: equal keys have the same dynamic type
and the same value. -/
inductive Key where
  /-- a key of the package type `osm.ctxKey` -/
  | ctxKey (s : String)
  /-- a key of the plain type `string` -/
  | str (s : String)
  /-- a key of any other comparable type, tagged by type identity -/
  | foreign (ty : Nat) (repr : String)
deriving DecidableEq, Repr

/-- A (non-nil) `context.Context`, given by its `Value` method. -/
structure Context where
  Value : Key → Any

/-- Go `context.Background()`: holds no value. -/
def Context.background : Context := ⟨fun _ => Any.nil⟩

/-- Go `context.WithValue(parent, key, val)`. -/
def WithValue (parent : Context) (key : Key) (val : Any) : Context :=
  ⟨fun k => if k = key then val else parent.Value k⟩

/-! ## internal/osm/context.go -/

def DEFAULT_OUTDIR : String := "./geojson"

def ctxKeyRaw : Key := Key.ctxKey "raw"
def ctxKeySeparated : Key := Key.ctxKey "separated"
def ctxKeyOut : Key := Key.ctxKey "out"
def ctxKeyRoot : Key := Key.ctxKey "root"
def ctxKeyLog : Key := Key.ctxKey "log"

/-- One recorded call of a logger method. -/
structure LogCall where
  logger : LoggerImpl
  method : String
  msg : String
deriving DecidableEq, Repr

/-- The map literal `ctxx` of `NewContext`, as its list of entries. -/
def ctxx (log : Logger) (raw separated : Bool) (out : String) : List (Key × Any) :=
  [ (ctxKeyLog, Any.ofLogger log),
    (ctxKeyRaw, Any.bool raw),
    (ctxKeySeparated, Any.bool separated),
    (ctxKeyOut, Any.str out) ]

/-- The keys of the map `ctxx`. -/
def ctxxKeys : List Key := [ctxKeyLog, ctxKeyRaw, ctxKeySeparated, ctxKeyOut]

/-- Go map index `m[k]`: the value stored under `k`, the zero value (nil) if none. -/
def mapIndex (m : List (Key × Any)) (k : Key) : Any :=
  (m.lookup k).getD Any.nil

/-- The loop `for k, v := range m { ctx = context.WithValue(ctx, k, v) }`,
visiting the keys of `m` in the order `order`. -/
def rangeWithValue (m : List (Key × Any)) (order : List Key) (ctx : Context) : Context :=
  order.foldl (fun c k => WithValue c k (mapIndex m k)) ctx

/-- Go `NewContext`.  Go leaves the iteration order of a map unspecified, so the
order in which the keys of `ctxx` are visited is the extra argument `order`
(a permutation of `ctxxKeys`).  The result is the new context together with the
logger calls made. -/
def NewContext (order : List Key) (ctx : Context) (log : Logger)
    (raw separated : Bool) (out : String) : Context × List LogCall :=
  let m := ctxx log raw separated out
  let calls : List LogCall :=
    match log with
    | some l => [⟨l, "Debugw", "context"⟩]
    | none => []
  (rangeWithValue m order ctx, calls)

def ctxShouldNormalize (ctx : Context) : Bool :=
  let (raw, ok) := (ctx.Value ctxKeyRaw).asBool
  !(ok && raw)

def ctxShouldPrint (ctx : Context) : Bool :=
  let (out, ok) := (ctx.Value ctxKeyOut).asString
  ok && out == ""

def ctxShouldCombine (ctx : Context) : Bool :=
  let (separated, ok) := (ctx.Value ctxKeySeparated).asBool
  !(ok && separated)

def ctxOutDir (ctx : Context) : String :=
  let (out, ok) := (ctx.Value ctxKeyOut).asString
  if !ok then DEFAULT_OUTDIR else out

def ctxRoot (ctx : Context) : RelationPtr × Bool :=
  let (v, ok) := (ctx.Value ctxKeyRoot).asRelation
  (v, ok)

def ctxLog (ctx : Context) : Logger :=
  let (v, ok) := (ctx.Value ctxKeyLog).asLogger
  if !ok then LoggerNoop else v

def ctxSetRoot (ctx : Context) (root : RelationPtr) : Context :=
  WithValue ctx ctxKeyRoot (Any.relation root)

/-! ## internal/osm/finder.go -/

/-- Result of a function of `finder.go` with the `os.Stat` calls it made. -/
structure Found where
  path : String
  err : Error
  stats : List String
deriving DecidableEq, Repr

/-- Go `validateOut`: the error of `os.Stat(dir)`, with the stat call recorded. -/
def validateOut (osStat : String → Error) (dir : String) : Error × List String :=
  (osStat dir, [dir])

/-- Go `FindSubAreas`.  `filePath` is defined in a file of package `osm` that is
not among the sources and `os.Stat` is the operating system, so both are
arguments: `filePath ctx id` returns `(path, ok)` and `osStat p` returns the
error of `os.Stat(p)`.  The relation id is an `int64` that is only passed on. -/
def FindSubAreas (filePath : Context → Int → String × Bool) (osStat : String → Error)
    (ctx : Context) (id : Int) : Found :=
  let (path, ok) := filePath ctx id
  if !ok then
    ⟨"", errorsNew "invalid directory", []⟩
  else
    let err := osStat path
    if err ≠ none then
      ⟨"", errorsNew "invalid path", [path]⟩
    else
      ⟨path, none, [path]⟩

/-! ## cmd/geojson/main.go -/

/-- A value of the map `App.Metadata` (`map[string]interface{}`), by dynamic type. -/
inductive MetaValue where
  /-- the nil interface (also what indexing an absent key gives) -/
  | nil
  /-- dynamic type `*zap.SugaredLogger` (the pointer itself may be nil) -/
  | sugaredLogger (p : Option LoggerImpl)
  /-- any other dynamic type -/
  | other (ty : Nat)
deriving DecidableEq, Repr

/-- Type assertion `x.(*zap.SugaredLogger)`. -/
def MetaValue.asSugaredLogger : MetaValue → Option LoggerImpl × Bool
  | MetaValue.sugaredLogger p => (p, true)
  | _ => (none, false)

/-- What the action reads of its `*cli.Context`. -/
structure CliContext where
  /-- the positional arguments `c.Args()` -/
  args : List String
  /-- the map `c.App.Metadata`, by index -/
  Metadata : String → MetaValue
  /-- the field `c.Context` -/
  Context : Context
  /-- the method `c.Bool` -/
  Bool : String → Bool
  /-- the method `c.String` -/
  String : String → String

/-- The call `c.Args().First()` of urfave/cli: the first argument, `""` if there is none. -/
def argsFirst (args : List String) : String := args.headD ""

/-- An effect of the subarea action outside its own body. -/
inductive Event where
  /-- a call `osm.NewContext(c.Context, logger, raw, separated, out)` -/
  | newContext (logger : LoggerImpl) (raw separated : Bool) (out : String)
  /-- a call `osm.SubAreas(ctx, relation)` -/
  | subAreas (relation : String)
  /-- a call `logger.Error(err)` -/
  | loggerError (logger : LoggerImpl) (err : String)
deriving DecidableEq, Repr

/-- The action returned by Go `NewSubAreaCommand`, with the calls it makes.
`osm.NewContext` is called here with two results `(ctx, err)` and `osm.SubAreas`
is not among the sources, so both are arguments. -/
def NewSubAreaCommand
    (osmNewContext : Context → Logger → Bool → Bool → String → Context × Error)
    (osmSubAreas : Context → String → Error)
    (c : CliContext) : Error × List Event :=
  let relation := argsFirst c.args
  if relation == "" then
    (errorsNew "invalid OpenStreetMap relation ID", [])
  else
    match (c.Metadata "logger").asSugaredLogger with
    | (_, false) => (none, [])
    | (none, true) => (none, [])
    | (some logger, true) =>
      let raw := c.Bool "raw"
      let separated := c.Bool "separated"
      let out := c.String "out"
      let (ctx, err) := osmNewContext c.Context (some logger) raw separated out
      if err ≠ none then
        (err, [Event.newContext logger raw separated out])
      else
        match osmSubAreas ctx relation with
        | some e =>
          (none, [Event.newContext logger raw separated out, Event.subAreas relation,
                  Event.loggerError logger e])
        | none =>
          (none, [Event.newContext logger raw separated out, Event.subAreas relation])

/-- The tail of Go `main` after `err := app.Run(os.Args)`: the process exit status
and the lines handed to `log.Println`. -/
def mainExit (err : Error) : Nat × List String :=
  match err with
  | none => (0, [])
  | some e => (1, [e])

/-! ## Reference definition for the lookup -/

/-- The error `FindSubAreas` gives for an unusable output directory. -/
def E_dir : Error := some "invalid directory"

/-- The error `FindSubAreas` gives for a missing artifact. -/
def E_path : Error := some "invalid path"

/-- Reference definition of the lookup, written from its description: the three
cases on what `filePath` and the stat report. -/
def FindSubAreasRef (filePath : Context → Int → String × Bool) (osStat : String → Error)
    (ctx : Context) (id : Int) : Found :=
  match filePath ctx id with
  | (_, false) => ⟨"", E_dir, []⟩
  | (p, true) =>
    match osStat p with
    | none => ⟨p, none, [p]⟩
    | some _ => ⟨"", E_path, [p]⟩

/-! ## Concrete inputs -/

/-- An iteration order of the map `ctxx` other than the order of the literal. -/
def sampleOrder : List Key := [ctxKeyOut, ctxKeyLog, ctxKeySeparated, ctxKeyRaw]

/-- A second iteration order of the map `ctxx`. -/
def sampleOrder2 : List Key := [ctxKeyRaw, ctxKeyLog, ctxKeySeparated, ctxKeyOut]

/-- A parent context that already holds values under the package's own keys and
under plain-string and foreign-typed keys of the same spelling. -/
def sampleParent : Context :=
  WithValue (WithValue (WithValue (WithValue (WithValue (WithValue Context.background
    ctxKeyRaw (Any.bool true))
    ctxKeySeparated (Any.bool true))
    ctxKeyOut (Any.str "/parent"))
    ctxKeyLog (Any.logger ⟨9⟩))
    (Key.str "raw") (Any.bool true))
    (Key.foreign 3 "out") (Any.str "/foreign")

/-- A `filePath` that always computes the path of the artifact of the relation
under "./geojson". -/
def sampleFilePath : Context → Int → String × Bool :=
  fun _ id => ("./geojson/" ++ toString id ++ ".geojson", true)

/-- A `filePath` whose output directory is unusable. -/
def sampleFilePathBad : Context → Int → String × Bool :=
  fun _ _ => ("", false)

/-- A file system that holds no file at all. -/
def sampleStatNone : String → Error :=
  fun _ => some "no such file or directory"

/-- A file system that holds exactly the artifact of relation 1. -/
def sampleStatOne : String → Error :=
  fun p => if p = "./geojson/1.geojson" then none else some "no such file or directory"

/-- An `osm.NewContext` that always succeeds: the context of `context.go`, no error. -/
def sampleNewContext : Context → Logger → Bool → Bool → String → Context × Error :=
  fun ctx log raw separated out => ((NewContext ctxxKeys ctx log raw separated out).1, none)

/-- An `osm.NewContext` that finds the output directory unavailable. -/
def sampleNewContextFail : Context → Logger → Bool → Bool → String → Context × Error :=
  fun ctx _ _ _ _ => (ctx, some "invalid output directory")

/-- An `osm.SubAreas` that cannot fetch the root relation. -/
def sampleSubAreasFail : Context → String → Error :=
  fun _ _ => some "could not fetch the relation"

/-- An invocation `geojson subarea 49915` with a logger configured. -/
def sampleInvocation : CliContext where
  args := ["49915"]
  Metadata := fun k => if k = "logger" then MetaValue.sugaredLogger (some ⟨1⟩) else MetaValue.nil
  Context := Context.background
  Bool := fun _ => false
  String := fun k => if k = "out" then "./geo" else ""

/-- An invocation `geojson subarea --raw ""` with a logger configured. -/
def sampleInvocationEmpty : CliContext where
  args := ["", "49915"]
  Metadata := fun k => if k = "logger" then MetaValue.sugaredLogger (some ⟨1⟩) else MetaValue.nil
  Context := Context.background
  Bool := fun k => decide (k = "raw")
  String := fun k => if k = "out" then "./geo" else ""

/-! ## Values read through a context built by `NewContext` -/

theorem rangeWithValue_Value (m : List (Key × Any)) (order : List Key) (c : Context)
    (k : Key) :
    (rangeWithValue m order c).Value k = if k ∈ order then mapIndex m k else c.Value k := by
  induction order generalizing c with
  | nil => simp [rangeWithValue]
  | cons x xs ih =>
    have step : rangeWithValue m (x :: xs) c = rangeWithValue m xs (WithValue c x (mapIndex m x)) := rfl
    rw [step, ih]
    by_cases hk : k ∈ xs
    · simp [hk]
    · by_cases hx : k = x
      · subst hx; simp [hk, WithValue]
      · simp [hk, hx, WithValue]

theorem NewContext_Value (order : List Key) (parent : Context) (log : Logger)
    (raw separated : Bool) (out : String) (horder : order.Perm ctxxKeys) (k : Key) :
    (NewContext order parent log raw separated out).1.Value k
      = if k ∈ ctxxKeys then mapIndex (ctxx log raw separated out) k else parent.Value k := by
  have hmem : k ∈ order ↔ k ∈ ctxxKeys := horder.mem_iff
  simp only [NewContext, rangeWithValue_Value]
  by_cases hk : k ∈ ctxxKeys
  · simp [hk, hmem.2 hk]
  · simp [hk, mt hmem.1 hk]

theorem NewContext_Value_raw (order : List Key) (parent : Context) (log : Logger)
    (raw separated : Bool) (out : String) (horder : order.Perm ctxxKeys) :
    (NewContext order parent log raw separated out).1.Value ctxKeyRaw = Any.bool raw := by
  rw [NewContext_Value order parent log raw separated out horder]
  rw [if_pos (by decide)]
  rfl

theorem NewContext_Value_separated (order : List Key) (parent : Context) (log : Logger)
    (raw separated : Bool) (out : String) (horder : order.Perm ctxxKeys) :
    (NewContext order parent log raw separated out).1.Value ctxKeySeparated
      = Any.bool separated := by
  rw [NewContext_Value order parent log raw separated out horder]
  rw [if_pos (by decide)]
  rfl

theorem NewContext_Value_out (order : List Key) (parent : Context) (log : Logger)
    (raw separated : Bool) (out : String) (horder : order.Perm ctxxKeys) :
    (NewContext order parent log raw separated out).1.Value ctxKeyOut = Any.str out := by
  rw [NewContext_Value order parent log raw separated out horder]
  rw [if_pos (by decide)]
  rfl

theorem NewContext_Value_log (order : List Key) (parent : Context) (log : Logger)
    (raw separated : Bool) (out : String) (horder : order.Perm ctxxKeys) :
    (NewContext order parent log raw separated out).1.Value ctxKeyLog = Any.ofLogger log := by
  rw [NewContext_Value order parent log raw separated out horder]
  rw [if_pos (by decide)]
  rfl

theorem NewContext_Value_other (order : List Key) (parent : Context) (log : Logger)
    (raw separated : Bool) (out : String) (horder : order.Perm ctxxKeys) (k : Key)
    (hk : k ∉ ctxxKeys) :
    (NewContext order parent log raw separated out).1.Value k = parent.Value k := by
  rw [NewContext_Value order parent log raw separated out horder]
  simp [hk]

theorem ctxKey_not_mem_ctxxKeys (k : Key) (hk : ∀ s, k ≠ Key.ctxKey s) : k ∉ ctxxKeys := by
  intro hmem
  simp only [ctxxKeys, ctxKeyLog, ctxKeyRaw, ctxKeySeparated, ctxKeyOut, List.mem_cons,
    List.mem_singleton, List.not_mem_nil, or_false] at hmem
  rcases hmem with h | h | h | h <;> exact hk _ h

/-! ## The sample iteration orders are permutations of the keys -/

theorem sampleOrder_perm : sampleOrder.Perm ctxxKeys := by decide

theorem sampleOrder2_perm : sampleOrder2.Perm ctxxKeys := by decide

/-! ## Claims about the options a context carries -/

/-- C6: tag normalization is applied unless raw mode is requested. For every
iteration order of the map, parent context, logger, separated flag and out string,
`ctxShouldNormalize` of the context built by `NewContext` is `!raw`; and on any
context that carries no boolean value under the raw key it is true. -/
theorem ctxShouldNormalize_NewContext (order : List Key) (parent : Context) (log : Logger)
    (raw separated : Bool) (out : String) (horder : order.Perm ctxxKeys) :
    ctxShouldNormalize (NewContext order parent log raw separated out).1 = !raw
    ∧ ∀ ctx : Context, (∀ b, ctx.Value ctxKeyRaw ≠ Any.bool b) →
        ctxShouldNormalize ctx = true := by
  refine ⟨?_, ?_⟩
  · simp [ctxShouldNormalize, NewContext_Value_raw order parent log raw separated out horder,
      Any.asBool]
  · intro ctx hno
    unfold ctxShouldNormalize
    cases hv : ctx.Value ctxKeyRaw with
    | bool b => exact absurd hv (hno b)
    | _ => simp [Any.asBool]

theorem ctxShouldNormalize_NewContext_witness :
    sampleOrder.Perm ctxxKeys
    ∧ ctxShouldNormalize (NewContext sampleOrder sampleParent (some ⟨4⟩) false true "o").1
        = !false
    ∧ ctxShouldNormalize (WithValue Context.background ctxKeyRaw (Any.str "true")) = true :=
  ⟨sampleOrder_perm,
   (ctxShouldNormalize_NewContext sampleOrder sampleParent (some ⟨4⟩) false true "o"
      sampleOrder_perm).1,
   (ctxShouldNormalize_NewContext sampleOrder sampleParent (some ⟨4⟩) false true "o"
      sampleOrder_perm).2 (WithValue Context.background ctxKeyRaw (Any.str "true"))
      (fun b h => Any.noConfusion (show Any.str "true" = Any.bool b from h))⟩

/-- C7: sub-areas are merged unless the separated flag is set. For every iteration
order of the map, parent context, logger, raw flag and out string,
`ctxShouldCombine` of the context built by `NewContext` is `!separated`; and on any
context that carries no boolean value under the separated key it is true. -/
theorem ctxShouldCombine_NewContext (order : List Key) (parent : Context) (log : Logger)
    (raw separated : Bool) (out : String) (horder : order.Perm ctxxKeys) :
    ctxShouldCombine (NewContext order parent log raw separated out).1 = !separated
    ∧ ∀ ctx : Context, (∀ b, ctx.Value ctxKeySeparated ≠ Any.bool b) →
        ctxShouldCombine ctx = true := by
  refine ⟨?_, ?_⟩
  · simp [ctxShouldCombine,
      NewContext_Value_separated order parent log raw separated out horder, Any.asBool]
  · intro ctx hno
    unfold ctxShouldCombine
    cases hv : ctx.Value ctxKeySeparated with
    | bool b => exact absurd hv (hno b)
    | _ => simp [Any.asBool]

theorem ctxShouldCombine_NewContext_witness :
    sampleOrder2.Perm ctxxKeys
    ∧ ctxShouldCombine (NewContext sampleOrder2 sampleParent none true false "").1 = !false
    ∧ ctxShouldCombine Context.background = true :=
  ⟨sampleOrder2_perm,
   (ctxShouldCombine_NewContext sampleOrder2 sampleParent none true false ""
      sampleOrder2_perm).1,
   (ctxShouldCombine_NewContext sampleOrder2 sampleParent none true false ""
      sampleOrder2_perm).2 Context.background
      (fun b h => Any.noConfusion (show Any.nil = Any.bool b from h))⟩

/-- C10: the output directory read back is the one supplied. For every out string,
the empty one included, `ctxOutDir` of the context built by `NewContext` is `out`;
it is `DEFAULT_OUTDIR` there exactly when `out` is itself "./geojson";
`ctxShouldPrint` of that context is true exactly when `out` is empty, and then
`ctxOutDir` is the empty string, not the default. On an arbitrary context
`ctxOutDir` is the default when no string value is held under the out key, and it
is the default only then or when the held string is "./geojson". -/
theorem ctxOutDir_NewContext (order : List Key) (parent : Context) (log : Logger)
    (raw separated : Bool) (out : String) (horder : order.Perm ctxxKeys) :
    ctxOutDir (NewContext order parent log raw separated out).1 = out
    ∧ (ctxOutDir (NewContext order parent log raw separated out).1 = DEFAULT_OUTDIR
        ↔ out = "./geojson")
    ∧ (ctxShouldPrint (NewContext order parent log raw separated out).1 = true ↔ out = "")
    ∧ (out = "" → ctxOutDir (NewContext order parent log raw separated out).1 = "")
    ∧ (∀ ctx : Context, (∀ s, ctx.Value ctxKeyOut ≠ Any.str s) →
        ctxOutDir ctx = DEFAULT_OUTDIR)
    ∧ (∀ ctx : Context, ctxOutDir ctx = DEFAULT_OUTDIR →
        (∀ s, ctx.Value ctxKeyOut ≠ Any.str s) ∨ ctx.Value ctxKeyOut = Any.str "./geojson") := by
  have hout : ctxOutDir (NewContext order parent log raw separated out).1 = out := by
    simp [ctxOutDir, NewContext_Value_out order parent log raw separated out horder,
      Any.asString]
  refine ⟨hout, ?_, ?_, ?_, ?_, ?_⟩
  · rw [hout]; rfl
  · simp [ctxShouldPrint, NewContext_Value_out order parent log raw separated out horder,
      Any.asString]
  · intro h; rw [hout]; exact h
  · intro ctx hno
    unfold ctxOutDir
    cases hv : ctx.Value ctxKeyOut with
    | str s => exact absurd hv (hno s)
    | _ => simp [Any.asString]
  · intro ctx hd
    unfold ctxOutDir at hd
    cases hv : ctx.Value ctxKeyOut with
    | str s =>
      right
      rw [hv] at hd
      simp only [Any.asString, Bool.not_true, Bool.false_eq_true, if_false] at hd
      rw [hd]; rfl
    | _ => left; intro s h; cases h

theorem ctxOutDir_NewContext_witness :
    sampleOrder.Perm ctxxKeys
    ∧ ctxOutDir (NewContext sampleOrder sampleParent (some ⟨4⟩) false false "").1 = ""
    ∧ ctxShouldPrint (NewContext sampleOrder sampleParent (some ⟨4⟩) false false "").1 = true
    ∧ ctxOutDir Context.background = DEFAULT_OUTDIR :=
  ⟨sampleOrder_perm,
   (ctxOutDir_NewContext sampleOrder sampleParent (some ⟨4⟩) false false ""
      sampleOrder_perm).1,
   (ctxOutDir_NewContext sampleOrder sampleParent (some ⟨4⟩) false false ""
      sampleOrder_perm).2.2.1.2 rfl,
   (ctxOutDir_NewContext sampleOrder sampleParent (some ⟨4⟩) false false ""
      sampleOrder_perm).2.2.2.2.1 Context.background
      (fun s h => Any.noConfusion (show Any.nil = Any.str s from h))⟩

/-- C8: a component always gets a usable logger. For every context `ctxLog` is a
non-nil logger; on a context built by `NewContext` with a non-nil logger `L` it is
exactly `L`; on a context built by `NewContext` with a nil logger, whatever the
parent holds, and on any context holding no logger value, it is `LoggerNoop`; and
`NewContext` makes no logger call when the logger is nil. -/
theorem ctxLog_usable (order : List Key) (parent : Context) (log : Logger)
    (raw separated : Bool) (out : String) (horder : order.Perm ctxxKeys) :
    (∀ ctx : Context, ctxLog ctx ≠ none)
    ∧ (∀ L : LoggerImpl, log = some L →
        ctxLog (NewContext order parent log raw separated out).1 = some L)
    ∧ (log = none → ctxLog (NewContext order parent log raw separated out).1 = LoggerNoop)
    ∧ (∀ ctx : Context, (∀ l, ctx.Value ctxKeyLog ≠ Any.logger l) → ctxLog ctx = LoggerNoop)
    ∧ (log = none → (NewContext order parent log raw separated out).2 = []) := by
  refine ⟨?_, ?_, ?_, ?_, ?_⟩
  · intro ctx
    unfold ctxLog
    cases ctx.Value ctxKeyLog <;> simp [Any.asLogger, LoggerNoop]
  · intro L hL
    subst hL
    simp [ctxLog, NewContext_Value_log order parent (some L) raw separated out horder,
      Any.ofLogger, Any.asLogger]
  · intro hL
    subst hL
    simp [ctxLog, NewContext_Value_log order parent none raw separated out horder,
      Any.ofLogger, Any.asLogger]
  · intro ctx hno
    unfold ctxLog
    cases hv : ctx.Value ctxKeyLog with
    | logger l => exact absurd hv (hno l)
    | _ => simp [Any.asLogger]
  · intro hL
    subst hL
    rfl

theorem ctxLog_usable_witness :
    sampleOrder.Perm ctxxKeys
    ∧ ctxLog sampleParent = some ⟨9⟩
    ∧ ctxLog (NewContext sampleOrder sampleParent none true false "o").1 = LoggerNoop
    ∧ (NewContext sampleOrder sampleParent none true false "o").2 = []
    ∧ ctxLog (WithValue Context.background ctxKeyLog (Any.str "log")) = LoggerNoop :=
  ⟨sampleOrder_perm, rfl,
   (ctxLog_usable sampleOrder sampleParent none true false "o" sampleOrder_perm).2.2.1 rfl,
   (ctxLog_usable sampleOrder sampleParent none true false "o" sampleOrder_perm).2.2.2.2 rfl,
   (ctxLog_usable sampleOrder sampleParent none true false "o" sampleOrder_perm).2.2.2.1
      (WithValue Context.background ctxKeyLog (Any.str "log"))
      (fun l h => Any.noConfusion (show Any.str "log" = Any.logger l from h))⟩

/-- C9: setting the root relation changes only the root. For every context and
relation pointer `r` (the nil pointer included), `ctxRoot (ctxSetRoot ctx r)` is
`(r, true)`; every key other than the root key, and with it `ctxShouldNormalize`,
`ctxShouldCombine`, `ctxOutDir`, `ctxShouldPrint` and `ctxLog`, reads on
`ctxSetRoot ctx r` what it reads on `ctx`; and a context that holds no relation
pointer under the root key answers `(nil, false)`. -/
theorem ctxSetRoot_frame (ctx : Context) (r : RelationPtr) :
    ctxRoot (ctxSetRoot ctx r) = (r, true)
    ∧ ctxShouldNormalize (ctxSetRoot ctx r) = ctxShouldNormalize ctx
    ∧ ctxShouldCombine (ctxSetRoot ctx r) = ctxShouldCombine ctx
    ∧ ctxOutDir (ctxSetRoot ctx r) = ctxOutDir ctx
    ∧ ctxShouldPrint (ctxSetRoot ctx r) = ctxShouldPrint ctx
    ∧ ctxLog (ctxSetRoot ctx r) = ctxLog ctx
    ∧ (∀ k : Key, k ≠ ctxKeyRoot → (ctxSetRoot ctx r).Value k = ctx.Value k)
    ∧ ((∀ p, ctx.Value ctxKeyRoot ≠ Any.relation p) → ctxRoot ctx = (none, false)) := by
  have hframe : ∀ k : Key, k ≠ ctxKeyRoot → (ctxSetRoot ctx r).Value k = ctx.Value k := by
    intro k hk
    simp [ctxSetRoot, WithValue, hk]
  have hraw : ctxKeyRaw ≠ ctxKeyRoot := by decide
  have hsep : ctxKeySeparated ≠ ctxKeyRoot := by decide
  have hout : ctxKeyOut ≠ ctxKeyRoot := by decide
  have hlog : ctxKeyLog ≠ ctxKeyRoot := by decide
  refine ⟨?_, ?_, ?_, ?_, ?_, ?_, hframe, ?_⟩
  · simp [ctxRoot, ctxSetRoot, WithValue, Any.asRelation]
  · simp only [ctxShouldNormalize, hframe _ hraw]
  · simp only [ctxShouldCombine, hframe _ hsep]
  · simp only [ctxOutDir, hframe _ hout]
  · simp only [ctxShouldPrint, hframe _ hout]
  · simp only [ctxLog, hframe _ hlog]
  · intro hno
    unfold ctxRoot
    cases hv : ctx.Value ctxKeyRoot with
    | relation p => exact absurd hv (hno p)
    | _ => simp [Any.asRelation]

theorem ctxSetRoot_frame_witness :
    ctxRoot (ctxSetRoot sampleParent none) = (none, true)
    ∧ ctxRoot sampleParent = (none, false) :=
  ⟨(ctxSetRoot_frame sampleParent none).1,
   (ctxSetRoot_frame sampleParent none).2.2.2.2.2.2.2
      (fun p h => Any.noConfusion (show Any.nil = Any.relation p from h))⟩

/-- C5: the options a context carries are determined by the request fields alone.
For every two parents, two loggers and two iteration orders of the map, equal
`raw`, `separated` and `out` give equal `ctxShouldNormalize`, `ctxShouldCombine`,
`ctxOutDir` and `ctxShouldPrint` on the two contexts built by `NewContext`; and
every key that is not of the package type `ctxKey` reads through the new context
what it reads on the parent. -/
theorem NewContext_options_determined (order1 order2 : List Key) (p1 p2 : Context)
    (log1 log2 : Logger) (raw separated : Bool) (out : String)
    (h1 : order1.Perm ctxxKeys) (h2 : order2.Perm ctxxKeys) :
    ctxShouldNormalize (NewContext order1 p1 log1 raw separated out).1
        = ctxShouldNormalize (NewContext order2 p2 log2 raw separated out).1
    ∧ ctxShouldCombine (NewContext order1 p1 log1 raw separated out).1
        = ctxShouldCombine (NewContext order2 p2 log2 raw separated out).1
    ∧ ctxOutDir (NewContext order1 p1 log1 raw separated out).1
        = ctxOutDir (NewContext order2 p2 log2 raw separated out).1
    ∧ ctxShouldPrint (NewContext order1 p1 log1 raw separated out).1
        = ctxShouldPrint (NewContext order2 p2 log2 raw separated out).1
    ∧ ∀ k : Key, (∀ s, k ≠ Key.ctxKey s) →
        (NewContext order1 p1 log1 raw separated out).1.Value k = p1.Value k := by
  refine ⟨?_, ?_, ?_, ?_, ?_⟩
  · simp only [ctxShouldNormalize, NewContext_Value_raw _ _ _ _ _ _ h1,
      NewContext_Value_raw _ _ _ _ _ _ h2]
  · simp only [ctxShouldCombine, NewContext_Value_separated _ _ _ _ _ _ h1,
      NewContext_Value_separated _ _ _ _ _ _ h2]
  · simp only [ctxOutDir, NewContext_Value_out _ _ _ _ _ _ h1,
      NewContext_Value_out _ _ _ _ _ _ h2]
  · simp only [ctxShouldPrint, NewContext_Value_out _ _ _ _ _ _ h1,
      NewContext_Value_out _ _ _ _ _ _ h2]
  · intro k hk
    exact NewContext_Value_other _ _ _ _ _ _ h1 k (ctxKey_not_mem_ctxxKeys k hk)

theorem NewContext_options_determined_witness :
    sampleOrder.Perm ctxxKeys ∧ sampleOrder2.Perm ctxxKeys
    ∧ ctxShouldNormalize (NewContext sampleOrder sampleParent (some ⟨4⟩) false true "o").1
        = ctxShouldNormalize (NewContext sampleOrder2 Context.background none false true "o").1
    ∧ (NewContext sampleOrder sampleParent (some ⟨4⟩) false true "o").1.Value (Key.str "raw")
        = sampleParent.Value (Key.str "raw") :=
  ⟨sampleOrder_perm, sampleOrder2_perm,
   (NewContext_options_determined sampleOrder sampleOrder2 sampleParent Context.background
      (some ⟨4⟩) none false true "o" sampleOrder_perm sampleOrder2_perm).1,
   (NewContext_options_determined sampleOrder sampleOrder2 sampleParent Context.background
      (some ⟨4⟩) none false true "o" sampleOrder_perm sampleOrder2_perm).2.2.2.2
      (Key.str "raw") (fun _ h => Key.noConfusion h)⟩

/-! ## Claims about the artifact lookup -/

/-- C1, as stated, fails: with the path computed (`ok = true`) and no file at that
path, `FindSubAreas` returns the non-nil error "invalid path". -/
theorem FindSubAreas_missing_file_errors :
    (sampleFilePath Context.background 49915).2 = true
    ∧ sampleStatNone (sampleFilePath Context.background 49915).1 ≠ none
    ∧ (FindSubAreas sampleFilePath sampleStatNone Context.background 49915).err
        = some "invalid path"
    ∧ (FindSubAreas sampleFilePath sampleStatNone Context.background 49915).err ≠ none := by
  refine ⟨rfl, ?_, rfl, ?_⟩
  · intro h; cases h
  · intro h; cases h

/-- C1, amended: lookup of an absent artifact is reported as an error. For every
context and relation id for which the path is computed (`filePath` returns
`ok = true`) but the stat of that path fails, `FindSubAreas` returns the empty path
together with the non-nil error "invalid path", after exactly one stat, of that
path. -/
theorem FindSubAreas_absent (filePath : Context → Int → String × Bool)
    (osStat : String → Error) (ctx : Context) (id : Int)
    (hok : (filePath ctx id).2 = true) (hstat : osStat (filePath ctx id).1 ≠ none) :
    FindSubAreas filePath osStat ctx id
        = ⟨"", some "invalid path", [(filePath ctx id).1]⟩
    ∧ (FindSubAreas filePath osStat ctx id).err ≠ none := by
  have h : FindSubAreas filePath osStat ctx id
      = ⟨"", some "invalid path", [(filePath ctx id).1]⟩ := by
    unfold FindSubAreas
    rcases hfp : filePath ctx id with ⟨p, ok⟩
    rw [hfp] at hok hstat
    simp only at hok hstat
    subst hok
    simp [hstat, errorsNew]
  refine ⟨h, ?_⟩
  rw [h]
  intro h0; cases h0

theorem FindSubAreas_absent_witness :
    (sampleFilePath Context.background 2).2 = true
    ∧ sampleStatOne (sampleFilePath Context.background 2).1 ≠ none
    ∧ FindSubAreas sampleFilePath sampleStatOne Context.background 2
        = ⟨"", some "invalid path", ["./geojson/2.geojson"]⟩ :=
  ⟨rfl, by decide,
   (FindSubAreas_absent sampleFilePath sampleStatOne Context.background 2 rfl (by decide)).1⟩

/-- C2: `FindSubAreas` equals the reference definition `FindSubAreasRef`, with
`filePath` and the stat as given functions. It returns `(p, nil)` exactly when
`filePath` gives `(p, true)` and the stat of `p` succeeds; when `filePath` reports
`ok = false` it returns `("", E_dir)` and makes no stat; when `filePath` succeeds
and the stat fails it returns `("", E_path)`; `E_dir` and `E_path` are different
errors, both non-nil; and a non-empty path never comes with an error. -/
theorem FindSubAreas_eq_ref (filePath : Context → Int → String × Bool)
    (osStat : String → Error) (ctx : Context) (id : Int) :
    FindSubAreas filePath osStat ctx id = FindSubAreasRef filePath osStat ctx id
    ∧ (∀ p : String,
        ((FindSubAreas filePath osStat ctx id).path = p
            ∧ (FindSubAreas filePath osStat ctx id).err = none)
          ↔ (filePath ctx id = (p, true) ∧ osStat p = none))
    ∧ ((filePath ctx id).2 = false →
        FindSubAreas filePath osStat ctx id = ⟨"", E_dir, []⟩)
    ∧ ((filePath ctx id).2 = true → osStat (filePath ctx id).1 ≠ none →
        FindSubAreas filePath osStat ctx id = ⟨"", E_path, [(filePath ctx id).1]⟩)
    ∧ E_dir ≠ E_path ∧ E_dir ≠ none ∧ E_path ≠ none
    ∧ ((FindSubAreas filePath osStat ctx id).err ≠ none →
        (FindSubAreas filePath osStat ctx id).path = "") := by
  unfold FindSubAreas FindSubAreasRef
  rcases hfp : filePath ctx id with ⟨q, ok⟩
  cases ok with
  | false =>
    refine ⟨by simp [errorsNew, E_dir], ?_, by simp [errorsNew, E_dir], by simp,
      by decide, by decide, by decide, by simp⟩
    intro p
    simp [errorsNew]
  | true =>
    cases hs : osStat q with
    | none =>
      refine ⟨by simp [hs], ?_, by simp, by simp [hs], by decide, by decide, by decide,
        by simp [hs]⟩
      intro p
      constructor
      · rintro ⟨hp, -⟩
        simp only [Bool.not_true, Bool.false_eq_true, if_false, hs, ne_eq, not_true_eq_false]
          at hp
        subst hp
        exact ⟨rfl, hs⟩
      · rintro ⟨hp, -⟩
        simp only [Prod.mk.injEq, and_true] at hp
        subst hp
        simp [hs]
    | some e =>
      refine ⟨by simp [hs, errorsNew, E_path], ?_, by simp, by simp [hs, errorsNew, E_path],
        by decide, by decide, by decide, by simp [hs]⟩
      intro p
      constructor
      · rintro ⟨-, he⟩
        simp [hs, errorsNew] at he
      · rintro ⟨hp, hn⟩
        simp only [Prod.mk.injEq, and_true] at hp
        subst hp
        rw [hs] at hn
        cases hn

theorem FindSubAreas_eq_ref_witness :
    FindSubAreas sampleFilePath sampleStatOne Context.background 1
        = ⟨"./geojson/1.geojson", none, ["./geojson/1.geojson"]⟩
    ∧ FindSubAreas sampleFilePathBad sampleStatOne Context.background 1
        = ⟨"", E_dir, []⟩
    ∧ FindSubAreas sampleFilePath sampleStatOne Context.background 3
        = ⟨"", E_path, ["./geojson/3.geojson"]⟩ :=
  ⟨(FindSubAreas_eq_ref sampleFilePath sampleStatOne Context.background 1).1.trans rfl,
   (FindSubAreas_eq_ref sampleFilePathBad sampleStatOne Context.background 1).2.2.1 rfl,
   (FindSubAreas_eq_ref sampleFilePath sampleStatOne Context.background 3).2.2.2.1 rfl
      (by decide)⟩

/-! ## Claims about the subarea command -/

/-- Every resolution error is swallowed by the action: for every non-empty
relation argument, with a logger configured and the context built successfully, if
`osm.SubAreas` returns an error `e` then the action calls `logger.Error(e)` once,
after the calls of `osm.NewContext` and `osm.SubAreas`, and returns nil, on which
`main` exits with status 0 without printing. -/
theorem NewSubAreaCommand_returns_nil_on_error
    (osmNewContext : Context → Logger → Bool → Bool → String → Context × Error)
    (osmSubAreas : Context → String → Error) (c : CliContext)
    (logger : LoggerImpl) (e : String)
    (hrel : argsFirst c.args ≠ "")
    (hlog : (c.Metadata "logger").asSugaredLogger = (some logger, true))
    (hctx : (osmNewContext c.Context (some logger) (c.Bool "raw") (c.Bool "separated")
              (c.String "out")).2 = none)
    (herr : osmSubAreas
              (osmNewContext c.Context (some logger) (c.Bool "raw") (c.Bool "separated")
                (c.String "out")).1
              (argsFirst c.args) = some e) :
    NewSubAreaCommand osmNewContext osmSubAreas c
        = (none,
           [Event.newContext logger (c.Bool "raw") (c.Bool "separated") (c.String "out"),
            Event.subAreas (argsFirst c.args),
            Event.loggerError logger e])
    ∧ mainExit (NewSubAreaCommand osmNewContext osmSubAreas c).1 = (0, []) := by
  have h : NewSubAreaCommand osmNewContext osmSubAreas c
      = (none,
         [Event.newContext logger (c.Bool "raw") (c.Bool "separated") (c.String "out"),
          Event.subAreas (argsFirst c.args),
          Event.loggerError logger e]) := by
    unfold NewSubAreaCommand
    simp only [beq_iff_eq, hrel, if_false, hlog]
    rcases hnc : osmNewContext c.Context (some logger) (c.Bool "raw") (c.Bool "separated")
        (c.String "out") with ⟨ctx, err⟩
    rw [hnc] at hctx herr
    simp only at hctx herr
    subst hctx
    simp [herr]
  refine ⟨h, ?_⟩
  rw [h]
  rfl

/-- An error of `osm.NewContext`, the sibling error path of the same action, is
returned to `main`: for every non-empty relation argument with a logger
configured, if `osm.NewContext` returns an error `e` then the action returns `e`
without calling `osm.SubAreas`, on which `main` prints it and exits with status 1. -/
theorem NewSubAreaCommand_returns_NewContext_error
    (osmNewContext : Context → Logger → Bool → Bool → String → Context × Error)
    (osmSubAreas : Context → String → Error) (c : CliContext)
    (logger : LoggerImpl) (e : String)
    (hrel : argsFirst c.args ≠ "")
    (hlog : (c.Metadata "logger").asSugaredLogger = (some logger, true))
    (hctx : (osmNewContext c.Context (some logger) (c.Bool "raw") (c.Bool "separated")
              (c.String "out")).2 = some e) :
    NewSubAreaCommand osmNewContext osmSubAreas c
        = (some e,
           [Event.newContext logger (c.Bool "raw") (c.Bool "separated") (c.String "out")])
    ∧ mainExit (NewSubAreaCommand osmNewContext osmSubAreas c).1 = (1, [e]) := by
  have h : NewSubAreaCommand osmNewContext osmSubAreas c
      = (some e,
         [Event.newContext logger (c.Bool "raw") (c.Bool "separated") (c.String "out")]) := by
    unfold NewSubAreaCommand
    simp only [beq_iff_eq, hrel, if_false, hlog]
    rcases hnc : osmNewContext c.Context (some logger) (c.Bool "raw") (c.Bool "separated")
        (c.String "out") with ⟨ctx, err⟩
    rw [hnc] at hctx
    simp only at hctx
    subst hctx
    simp
  refine ⟨h, ?_⟩
  rw [h]
  rfl

/-- C3: the code breaks the claim. For `geojson subarea 49915` with a logger
configured and the context built, an `osm.SubAreas` that returns the error
"could not fetch the relation" makes the action pass it to `logger.Error` and
return nil, on which `main` exits with status 0; the claim asks for a non-nil
error and a non-zero status. On the same invocation an error of `osm.NewContext`,
and on an empty relation argument the error "invalid OpenStreetMap relation ID",
are returned, on which `main` exits with status 1. -/
theorem NewSubAreaCommand_swallows_error :
    argsFirst sampleInvocation.args ≠ ""
    ∧ (sampleInvocation.Metadata "logger").asSugaredLogger = (some ⟨1⟩, true)
    ∧ (sampleNewContext sampleInvocation.Context (some ⟨1⟩) false false "./geo").2 = none
    ∧ sampleSubAreasFail
        (sampleNewContext sampleInvocation.Context (some ⟨1⟩) false false "./geo").1 "49915"
        = some "could not fetch the relation"
    ∧ NewSubAreaCommand sampleNewContext sampleSubAreasFail sampleInvocation
        = (none,
           [Event.newContext ⟨1⟩ false false "./geo", Event.subAreas "49915",
            Event.loggerError ⟨1⟩ "could not fetch the relation"])
    ∧ mainExit (NewSubAreaCommand sampleNewContext sampleSubAreasFail sampleInvocation).1
        = (0, [])
    ∧ NewSubAreaCommand sampleNewContextFail sampleSubAreasFail sampleInvocation
        = (some "invalid output directory", [Event.newContext ⟨1⟩ false false "./geo"])
    ∧ mainExit (NewSubAreaCommand sampleNewContextFail sampleSubAreasFail sampleInvocation).1
        = (1, ["invalid output directory"])
    ∧ mainExit (NewSubAreaCommand sampleNewContext sampleSubAreasFail sampleInvocationEmpty).1
        = (1, ["invalid OpenStreetMap relation ID"]) :=
  ⟨by decide, rfl, rfl, rfl, rfl, rfl, rfl, rfl, rfl⟩

/-- C4: an empty relation id is rejected immediately. For every invocation whose
first positional argument is the empty string (or is missing), whatever the flags
and the application metadata are, the action returns the error
"invalid OpenStreetMap relation ID" and makes no call: no context is built, and
`osm.SubAreas` and the logger are not called. -/
theorem NewSubAreaCommand_empty_relation
    (osmNewContext : Context → Logger → Bool → Bool → String → Context × Error)
    (osmSubAreas : Context → String → Error) (c : CliContext)
    (hrel : argsFirst c.args = "") :
    NewSubAreaCommand osmNewContext osmSubAreas c
      = (some "invalid OpenStreetMap relation ID", []) := by
  unfold NewSubAreaCommand
  simp [hrel, errorsNew]

theorem NewSubAreaCommand_empty_relation_witness :
    argsFirst sampleInvocationEmpty.args = ""
    ∧ NewSubAreaCommand sampleNewContext sampleSubAreasFail sampleInvocationEmpty
        = (some "invalid OpenStreetMap relation ID", []) :=
  ⟨rfl,
   NewSubAreaCommand_empty_relation sampleNewContext sampleSubAreasFail
     sampleInvocationEmpty rfl⟩

end Geojson
